/-
Verification of the CineMatch movie-recommendation app (`app.py`).

The file shallowly embeds the core of `app.py`:
  * the movie table (a pandas DataFrame with columns `original_title`,
    `imdb_id`, optionally `director`) as a `List MovieRow`;
  * the precomputed similarity matrix as a `List (List ℚ)`;
  * `recommend` (title lookup, Python's stable descending `sorted` over
    `enumerate(similarity[index])`, `[1:6]` slice, `iloc` row builds);
  * the TMDB gateway (`_resolve_tmdb_id_from_imdb`, `fetch_poster_by_imdb`,
    `fetch_trailer_by_imdb`, `get_movie_details_by_imdb`) over an oracle that
    describes the behaviour of every outbound HTTP call; Python exceptions are
    `Except PyExn`, a `try/except` block is an explicit catch;
  * the `functools.lru_cache(maxsize=4096)` decorator as an explicit
    least-recently-used association list (most recent first);
  * `update_history` (the bounded recently-viewed list);
  * the module-level load block (artifact loading and column checks).

Python `None` is `Option.none`; a raised, uncaught exception is `Except.error`
(or `Option.none` for `recommend`, whose callers do not catch).
-/
import Mathlib

namespace CineMatch

/-! ## Data model -/

/-- One row of the movie table: the columns `app.py` reads. -/
structure MovieRow where
  original_title : String
  imdb_id : String
  director : Option String := none
deriving Repr, DecidableEq

/-- One recommendation result record built inside `recommend`. -/
structure RecEntry where
  title : String
  poster : Option String
  trailer : Option String
deriving Repr, DecidableEq

/-! ## Stable descending sort

`app.py` line 224 runs
`sorted(list(enumerate(similarity[index])), reverse=True, key=lambda x: x[1])`.
Python's `sorted` is stable, and with `reverse=True` elements with equal keys
still keep their original relative order.  Any stable descending sort computes
the same list, so we embed it as insertion sort: an element is inserted after
every earlier element whose score is strictly greater and before the first
element whose score is not. -/

/-- Insert `x` into an already-sorted (descending, stable) list of
`(index, score)` pairs: `x` stays behind every strictly greater score and is
placed before the first element it ties or beats. -/
def insertPair (x : Nat × ℚ) : List (Nat × ℚ) → List (Nat × ℚ)
  | [] => [x]
  | y :: ys => if x.2 < y.2 then y :: insertPair x ys else x :: y :: ys

/-- Stable descending sort by score of a list of `(index, score)` pairs,
the embedding of `sorted(..., reverse=True, key=lambda x: x[1])`. -/
def sortPairs : List (Nat × ℚ) → List (Nat × ℚ)
  | [] => []
  | x :: xs => insertPair x (sortPairs xs)

/-- The strict order the sorted output satisfies: strictly greater score
first, and on equal scores the smaller original row index first. -/
def KeyLT (a b : Nat × ℚ) : Prop :=
  b.2 < a.2 ∨ (a.2 = b.2 ∧ a.1 < b.1)

/-! ## Core recommender (`app.py` lines 218-236)

`recommend` looks up the first row whose `original_title` equals the query
(`.index[0]` raises `IndexError` on an empty match, modelled as `none`),
sorts the enumerated similarity row, skips the first entry and takes the
next five, and builds one record per candidate row via `iloc` (an
out-of-range `iloc` also raises, modelled as `none`). -/

/-- `movies[movies["original_title"] == movie_title].index[0]`: index of the
first row whose title matches, `none` when the match is empty (the unguarded
`IndexError`). -/
def titleIndex (movies : List MovieRow) (movie_title : String) : Option Nat :=
  movies.findIdx? fun r => r.original_title == movie_title

/-- The `distances` list of `recommend`: the enumerated similarity row of the
first title match, stably sorted by descending score. -/
def candidates (movies : List MovieRow) (similarity : List (List ℚ))
    (movie_title : String) : Option (List (Nat × ℚ)) :=
  (titleIndex movies movie_title).bind fun index =>
    similarity[index]?.map fun row => sortPairs row.enum

/-- The candidate row indices `recommend` iterates over: `distances[1:6]`
projected to the original row index `i[0]`. -/
def recIndices (movies : List MovieRow) (similarity : List (List ℚ))
    (movie_title : String) : Option (List Nat) :=
  (candidates movies similarity movie_title).map fun d =>
    ((d.drop 1).take 5).map Prod.fst

/-- The loop body of `recommend`: one record per candidate row index, built
from `movies.iloc[i[0]]` (`none` when some index is out of range). -/
def buildRecs (movies : List MovieRow)
    (fetchPoster fetchTrailer : String → Option String) :
    List Nat → Option (List RecEntry)
  | [] => some []
  | j :: js =>
    match movies[j]? with
    | none => none
    | some row =>
      (buildRecs movies fetchPoster fetchTrailer js).map
        fun rest =>
          { title := row.original_title
            poster := fetchPoster row.imdb_id
            trailer := fetchTrailer row.imdb_id } :: rest

/-- `recommend(movie_title)` from `app.py`: `none` models an uncaught
exception (empty title match or out-of-range index), `some recs` a normal
return. -/
def recommend (movies : List MovieRow) (similarity : List (List ℚ))
    (fetchPoster fetchTrailer : String → Option String)
    (movie_title : String) : Option (List RecEntry) :=
  (recIndices movies similarity movie_title).bind
    (buildRecs movies fetchPoster fetchTrailer)

/-! ## TMDB metadata gateway (`app.py` lines 58-156)

Each gateway function performs HTTP GETs whose behaviour we abstract into an
oracle: a call either raises (connection failure surviving the retry layer,
or a `.json()` parse error) or yields a status code and a payload in which
every JSON field the code reads is optional.  A raised Python exception is
`Except.error ()`; the `try/except Exception` + fall-through `return None`
pattern of every gateway function is `tryOrNone`. -/

/-- A Python exception value; the code only ever catches all, so the payload
is irrelevant. -/
def PyExn : Type := Unit

/-- Outcome of one outbound `requests_retry_session().get(url).json()`
pipeline. -/
inductive HttpResp (α : Type) where
  | raised
  | ok (status : Nat) (payload : α)

/-- One entry of `payload["movie_results"]` in the find-by-imdb response. -/
structure FindEntry where
  id : Option Int
deriving Repr, DecidableEq

/-- The find-by-imdb response body. -/
structure FindPayload where
  movie_results : Option (List FindEntry)
deriving Repr, DecidableEq

/-- The `/movie/{id}` detail body, as read by `fetch_poster_by_imdb`. -/
structure PosterPayload where
  poster_path : Option String
deriving Repr, DecidableEq

/-- One entry of the `/movie/{id}/videos` result list. -/
structure Video where
  type : Option String
  site : Option String
  key : Option String
deriving Repr, DecidableEq

/-- One cast entry of the appended credits. -/
structure Actor where
  name : Option String
  character : Option String
  profile_path : Option String
deriving Repr, DecidableEq

/-- The appended `credits` object. -/
structure Credits where
  cast : Option (List Actor)
deriving Repr, DecidableEq

/-- One entry of `data["genres"]`; `g["name"]` raises when absent. -/
structure Genre where
  name : Option String
deriving Repr, DecidableEq

/-- One entry of `data["spoken_languages"]`. -/
structure Lang where
  english_name : Option String
deriving Repr, DecidableEq

/-- The `/movie/{id}?append_to_response=credits,videos` body, as read by
`get_movie_details_by_imdb`. -/
structure FullPayload where
  vote_average : Option ℚ
  vote_count : Option Int
  release_date : Option String
  runtime : Option Int
  tagline : Option String
  overview : Option String
  credits : Option Credits
  genres : Option (List Genre)
  budget : Option Int
  revenue : Option Int
  spoken_languages : Option (List Lang)
deriving Repr, DecidableEq

/-- Behaviour of the external API, one field per endpoint shape the code
calls (find-by-imdb, movie detail, video list, detail+credits+videos). -/
structure TmdbOracle where
  find : String → HttpResp FindPayload
  movie : Int → HttpResp PosterPayload
  videos : Int → HttpResp (List Video)
  movieFull : Int → HttpResp FullPayload

/-- Python truthiness of an optional string: `None` and `""` are falsy. -/
def strTruthy : Option String → Bool
  | none => false
  | some s => !(s == "")

/-- Python truthiness of an optional integer: `None` and `0` are falsy. -/
def intTruthy : Option Int → Bool
  | none => false
  | some n => !(n == 0)

/-- Python truthiness of an optional list: `None` and `[]` are falsy. -/
def listTruthy {α : Type} : Option (List α) → Bool
  | none => false
  | some l => !l.isEmpty

/-- The `try: ... except Exception: print(...)` + `return None` pattern:
every exception raised inside the body becomes the fall-through `None`. -/
def tryOrNone {α : Type} (body : Except PyExn (Option α)) : Option α :=
  match body with
  | .ok v => v
  | .error _ => none

/-- `_resolve_tmdb_id_from_imdb` (lines 58-76) without its `lru_cache`
wrapper (modelled separately): empty id short-circuits to `None` before the
`try`; inside it, a raised GET, a non-200 status, an absent or empty
`movie_results`, or an absent `id` field all end in `None`. -/
def _resolve_tmdb_id_from_imdb (o : TmdbOracle) (imdb_id : String) :
    Except PyExn (Option Int) :=
  if imdb_id = "" then pure none
  else
    pure (tryOrNone (match o.find imdb_id with
      | .raised => .error ()
      | .ok status payload =>
        if status = 200 then
          match payload.movie_results.getD [] with
          | [] => pure none
          | r :: _ => pure r.id
        else pure none))

/-- `fetch_poster_by_imdb` (lines 78-92): resolve (outside the `try`), falsy
id short-circuits, then detail fetch with poster-path extraction inside the
`try`. -/
def fetch_poster_by_imdb (o : TmdbOracle) (imdb_id : String) :
    Except PyExn (Option String) :=
  match _resolve_tmdb_id_from_imdb o imdb_id with
  | .error e => .error e
  | .ok tmdb_id =>
  if intTruthy tmdb_id then
    pure (tryOrNone (match o.movie (tmdb_id.getD 0) with
      | .raised => .error ()
      | .ok status data =>
        if status = 200 then
          if strTruthy data.poster_path then
            pure (some ("https://image.tmdb.org/t/p/w500" ++
              data.poster_path.getD ""))
          else pure none
        else pure none))
  else
    pure none

/-- The video-list scan of `fetch_trailer_by_imdb`: first entry whose type is
"Trailer" and site is "YouTube" wins; its missing `key` field is an uncaught
subscript (`video["key"]`), raised inside the enclosing `try`. -/
def firstTrailer : List Video → Except PyExn (Option String)
  | [] => pure none
  | v :: vs =>
    if v.type == some "Trailer" && v.site == some "YouTube" then
      match v.key with
      | some k => pure (some ("https://youtu.be/" ++ k))
      | none => .error ()
    else firstTrailer vs

/-- `fetch_trailer_by_imdb` (lines 94-107). -/
def fetch_trailer_by_imdb (o : TmdbOracle) (imdb_id : String) :
    Except PyExn (Option String) :=
  match _resolve_tmdb_id_from_imdb o imdb_id with
  | .error e => .error e
  | .ok tmdb_id =>
  if intTruthy tmdb_id then
    pure (tryOrNone (match o.videos (tmdb_id.getD 0) with
      | .raised => .error ()
      | .ok status data =>
        if status = 200 then firstTrailer data
        else pure none))
  else
    pure none

/-- Digit-grouping core: given the reversed digit list, insert a comma after
every third digit. -/
def commaFormatCore : List Char → List Char
  | a :: b :: c :: d :: rest => a :: b :: c :: ',' :: commaFormatCore (d :: rest)
  | l => l

/-- Python's `f"{n:,}"` for a natural number: decimal digits grouped in
threes by commas. -/
def commaFormat (n : Nat) : String :=
  ⟨(commaFormatCore (Nat.toDigits 10 n).reverse).reverse⟩

/-- `[g["name"] for g in genres]`: raises on the first entry without a
`name` field. -/
def genreNames : List Genre → Except PyExn (List String)
  | [] => pure []
  | g :: gs =>
    match g.name with
    | none => .error ()
    | some n => do
      let rest ← genreNames gs
      pure (n :: rest)

/-- `[lang["english_name"] for lang in spoken_languages]`: raises on the
first entry without an `english_name` field. -/
def langNames : List Lang → Except PyExn (List String)
  | [] => pure []
  | l :: ls =>
    match l.english_name with
    | none => .error ()
    | some n => do
      let rest ← langNames ls
      pure (n :: rest)

/-- One entry of the assembled cast list. -/
structure CastDetail where
  name : Option String
  character : Option String
  profile : Option String
deriving Repr, DecidableEq

/-- The enrichment bundle returned by `get_movie_details_by_imdb`. -/
structure MovieDetails where
  rating : Option ℚ
  vote_count : Option Int
  release_date : Option String
  runtime : Option Int
  tagline : Option String
  overview : Option String
  director : String
  cast : List CastDetail
  genres : String
  budget : String
  revenue : String
  available_in : String
deriving Repr, DecidableEq

/-- The 200-branch of `get_movie_details_by_imdb` (lines 121-153): assemble
the bundle from the payload.  `Except.error` is a raised subscript on a
genre or language record without its name field (caught by the enclosing
`try`). -/
def buildDetails (data : FullPayload) (director_name : String) :
    Except PyExn MovieDetails :=
  let directors := if director_name = "" then "N/A" else director_name
  let cast := ((data.credits.getD ⟨none⟩).cast.getD []).take 5
  let cast_details := cast.map fun actor =>
    { name := actor.name
      character := actor.character
      profile :=
        if strTruthy actor.profile_path then
          some ("https://image.tmdb.org/t/p/w500" ++ actor.profile_path.getD "")
        else none : CastDetail }
  match (if listTruthy data.genres then
      (genreNames (data.genres.getD [])).map (String.intercalate ", ")
    else pure "N/A") with
  | .error e => .error e
  | .ok genres =>
  match (if listTruthy data.spoken_languages then
      (langNames (data.spoken_languages.getD [])).map (String.intercalate ", ")
    else pure "N/A") with
  | .error e => .error e
  | .ok available_in =>
  pure
    { rating := data.vote_average
      vote_count := data.vote_count
      release_date := data.release_date
      runtime := data.runtime
      tagline := data.tagline
      overview := data.overview
      director := directors
      cast := cast_details
      genres := genres
      budget :=
        if 0 < data.budget.getD 0 then
          "$" ++ commaFormat (data.budget.getD 0).toNat
        else "N/A"
      revenue :=
        if 0 < data.revenue.getD 0 then
          "$" ++ commaFormat (data.revenue.getD 0).toNat
        else "N/A"
      available_in := available_in }

/-- `get_movie_details_by_imdb` (lines 109-156): resolve, falsy id
short-circuits, then the combined detail call with the bundle assembly
inside the `try`. -/
def get_movie_details_by_imdb (o : TmdbOracle) (imdb_id : String)
    (director_name : String) : Except PyExn (Option MovieDetails) :=
  match _resolve_tmdb_id_from_imdb o imdb_id with
  | .error e => .error e
  | .ok tmdb_id =>
  if intTruthy tmdb_id then
    pure (tryOrNone (match o.movieFull (tmdb_id.getD 0) with
      | .raised => .error ()
      | .ok status data =>
        if status = 200 then
          match buildDetails data director_name with
          | .error e => .error e
          | .ok d => pure (some d)
        else pure none))
  else
    pure none

/-! ## Identifier-resolution cache

Modelled from the spec: `functools.lru_cache(maxsize=4096)` wraps
`_resolve_tmdb_id_from_imdb`; the decorator's implementation lives outside
this repository, so its documented semantics — a bounded memo table of
capacity 4096 with least-recently-used eviction — is embedded as an explicit
association list kept in most-recently-used-first order. -/

/-- The `maxsize` passed to `lru_cache` at line 58. -/
def RESOLVE_CACHE_CAPACITY : Nat := 4096

/-- Cache lookup by key. -/
def lruLookup (k : String) :
    List (String × Option Int) → Option (Option Int)
  | [] => none
  | (k', v) :: rest => if k' = k then some v else lruLookup k rest

/-- Remove a key's entry (used to move a hit to the front). -/
def lruRemove (k : String) :
    List (String × Option Int) → List (String × Option Int)
  | [] => []
  | (k', v) :: rest => if k' = k then rest else (k', v) :: lruRemove k rest

/-- One call through the LRU cache: the value, the new state, and the number
of underlying (outbound) calls performed.  A hit moves the entry to the
front; a miss computes, inserts at the front, and truncates to capacity,
dropping the least-recently-used (last) entry. -/
def lruCall (cap : Nat) (f : String → Option Int)
    (st : List (String × Option Int)) (k : String) :
    Option Int × List (String × Option Int) × Nat :=
  match lruLookup k st with
  | some v => (v, (k, v) :: lruRemove k st, 0)
  | none => (f k, ((k, f k) :: st).take cap, 1)

/-- The pure value of `_resolve_tmdb_id_from_imdb` (which never raises, so
the exception layer is degenerate). -/
def resolveValue (o : TmdbOracle) (imdb_id : String) : Option Int :=
  match _resolve_tmdb_id_from_imdb o imdb_id with
  | .ok v => v
  | .error _ => none

/-- The decorated resolver: `lru_cache(maxsize=4096)` around the resolve
body. -/
def cachedResolve (o : TmdbOracle) (st : List (String × Option Int))
    (imdb_id : String) : Option Int × List (String × Option Int) × Nat :=
  lruCall RESOLVE_CACHE_CAPACITY (resolveValue o) st imdb_id

/-! ## Recently-viewed history (`app.py` lines 247-252) -/

/-- `update_history`: append unless equal to the last entry; drop the oldest
(front) entry when the length exceeds 5. -/
def update_history (history : List String) (imdb_id : String) : List String :=
  if history = [] ∨ history.getLast? ≠ some imdb_id then
    let h := history ++ [imdb_id]
    if 5 < h.length then h.drop 1 else h
  else history

/-- The invariant of the recently-viewed list: at most 5 entries, no two
adjacent entries equal. -/
def GoodHist (h : List String) : Prop :=
  h.length ≤ 5 ∧ h.Chain' (· ≠ ·)

/-! ## Startup load block (`app.py` lines 164-213) -/

/-- The unpickled movie table: which required columns exist, plus the rows. -/
structure RawMovies where
  hasOriginalTitle : Bool
  hasImdbId : Bool
  rows : List MovieRow
deriving Repr, DecidableEq

/-- The two artifacts as unpickled; `none` models a failed `pickle.load`
(missing or unreadable file). -/
structure RawArtifacts where
  moviesPickle : Option RawMovies
  similarityPickle : Option (List (List ℚ))

/-- The module-level load block: `none` models `st.stop()` (halt with a
visible `st.error` before serving); `some` is the data the app serves with.
The code checks that both pickles load and that the `original_title` and
`imdb_id` columns exist; it performs no similarity/table row-count
comparison. -/
def loadData (raw : RawArtifacts) :
    Option (List MovieRow × List (List ℚ)) :=
  match raw.moviesPickle, raw.similarityPickle with
  | none, _ => none
  | _, none => none
  | some m, some s =>
    if m.hasOriginalTitle = false then none
    else if m.hasImdbId = false then none
    else some (m.rows, s)

/-! ## Concrete data for witnesses -/

/-- An oracle whose every call raises, for witness instantiations. -/
def oracleStub : TmdbOracle :=
  { find := fun _ => .raised
    movie := fun _ => .raised
    videos := fun _ => .raised
    movieFull := fun _ => .raised }

/-- A provider payload with a positive budget and a zero revenue. -/
def samplePayload : FullPayload :=
  { vote_average := none
    vote_count := none
    release_date := none
    runtime := none
    tagline := none
    overview := none
    credits := none
    genres := none
    budget := some 250000000
    revenue := some 0
    spoken_languages := none }

/-- The bundle `buildDetails` assembles from `samplePayload`. -/
def sampleDetails : MovieDetails :=
  { rating := none
    vote_count := none
    release_date := none
    runtime := none
    tagline := none
    overview := none
    director := "Nolan"
    cast := []
    genres := "N/A"
    budget := "$250,000,000"
    revenue := "N/A"
    available_in := "N/A" }

theorem insertPair_perm (x : Nat × ℚ) (l : List (Nat × ℚ)) :
    List.Perm (insertPair x l) (x :: l) := by
  induction l with
  | nil => simp [insertPair]
  | cons y ys ih =>
    by_cases h : x.2 < y.2
    · simp only [insertPair, if_pos h]
      exact (List.Perm.cons y ih).trans (List.Perm.swap x y ys)
    · simp [insertPair, if_neg h]

theorem sortPairs_perm (l : List (Nat × ℚ)) : List.Perm (sortPairs l) l := by
  induction l with
  | nil => simp [sortPairs]
  | cons x xs ih =>
    exact (insertPair_perm x (sortPairs xs)).trans (List.Perm.cons x ih)

theorem mem_insertPair {a x : Nat × ℚ} {l : List (Nat × ℚ)} :
    a ∈ insertPair x l ↔ a = x ∨ a ∈ l := by
  constructor
  · intro h
    have := (insertPair_perm x l).mem_iff.mp h
    simpa using this
  · intro h
    apply (insertPair_perm x l).mem_iff.mpr
    simpa using h

/-- Inserting an input-earlier element `x` into a sorted list keeps the list
sorted, provided every equal-score element already present carries a larger
original index (stability of the source sort). -/
theorem insertPair_sorted {x : Nat × ℚ} {l : List (Nat × ℚ)}
    (hs : l.Pairwise KeyLT)
    (hx : ∀ y ∈ l, y.2 = x.2 → x.1 < y.1) :
    (insertPair x l).Pairwise KeyLT := by
  induction l with
  | nil => simp [insertPair, List.Pairwise]
  | cons y ys ih =>
    rcases List.pairwise_cons.mp hs with ⟨hy, hys⟩
    by_cases h : x.2 < y.2
    · simp only [insertPair, if_pos h]
      refine List.pairwise_cons.mpr ⟨?_, ?_⟩
      · intro z hz
        rcases mem_insertPair.mp hz with hz0 | hz'
        · subst hz0
          exact Or.inl h
        · exact hy z hz'
      · exact ih hys (fun z hz hz2 => hx z (List.mem_cons_of_mem y hz) hz2)
    · push_neg at h
      simp only [insertPair, if_neg (not_lt.mpr h)]
      refine List.pairwise_cons.mpr ⟨?_, hs⟩
      intro z hz
      rcases List.mem_cons.mp hz with hz0 | hz'
      · subst hz0
        rcases lt_or_eq_of_le h with hlt | heq
        · exact Or.inl hlt
        · exact Or.inr ⟨heq.symm, hx z (List.mem_cons_self z ys) heq⟩
      · rcases hy z hz' with hlt | ⟨heq, _⟩
        · rcases lt_or_eq_of_le h with hyx | hyx
          · exact Or.inl (hlt.trans hyx)
          · exact Or.inl (hyx ▸ hlt)
        · have hzx : z.2 ≤ x.2 := heq ▸ h
          rcases lt_or_eq_of_le hzx with hlt' | heq'
          · exact Or.inl hlt'
          · exact Or.inr ⟨heq'.symm, hx z (List.mem_cons_of_mem y hz') heq'⟩

/-- Sorting a list whose equal-score elements appear in increasing index
order (true of `enumerate`) yields a list sorted by `KeyLT`. -/
theorem sortPairs_sorted {l : List (Nat × ℚ)}
    (h : l.Pairwise fun a b => a.2 = b.2 → a.1 < b.1) :
    (sortPairs l).Pairwise KeyLT := by
  induction l with
  | nil => simp [sortPairs, List.Pairwise]
  | cons x xs ih =>
    rcases List.pairwise_cons.mp h with ⟨hx, hxs⟩
    refine insertPair_sorted (ih hxs) ?_
    intro y hy hy2
    have hy' : y ∈ xs := (sortPairs_perm xs).mem_iff.mp hy
    exact hx y hy' hy2.symm

/-- `enumerate` of a list: equal-score entries appear in strictly increasing
index order, the hypothesis stability needs. -/
theorem enum_pairwise_idx (l : List ℚ) :
    l.enum.Pairwise fun a b => a.2 = b.2 → a.1 < b.1 := by
  have h : (l.enum.map Prod.fst).Pairwise (· < ·) := by
    rw [List.enum_map_fst]
    exact List.pairwise_lt_range l.length
  have h' := (List.pairwise_map.mp h)
  refine h'.imp ?_
  intro a b hab
  exact fun _ => hab

/-! ## Supporting lemmas about the recommender -/

theorem candidates_eq {movies : List MovieRow} {similarity : List (List ℚ)}
    {movie_title : String} {index : Nat} {row : List ℚ}
    (h1 : titleIndex movies movie_title = some index)
    (h2 : similarity[index]? = some row) :
    candidates movies similarity movie_title = some (sortPairs row.enum) := by
  simp [candidates, h1, h2]

/-- When the diagonal score of row `i` strictly dominates every other entry,
the stable sort puts `(i, row[i])` first and `i` nowhere later. -/
theorem sortPairs_head_of_strict_max {i : Nat} {row : List ℚ}
    (hi : i < row.length)
    (hmax : ∀ j, j < row.length → j ≠ i → row.getD j 0 < row.getD i 0) :
    ∃ rest, sortPairs row.enum = (i, row.getD i 0) :: rest ∧
      i ∉ rest.map Prod.fst := by
  have hperm : List.Perm (sortPairs row.enum) row.enum := sortPairs_perm _
  have hgd : row[i]? = some (row.getD i 0) := by
    rw [List.getD_eq_getElem?_getD, List.getElem?_eq_getElem hi]
    rfl
  have hienum : (i, row.getD i 0) ∈ row.enum :=
    List.mk_mem_enum_iff_getElem?.mpr hgd
  have hmem : (i, row.getD i 0) ∈ sortPairs row.enum := hperm.mem_iff.mpr hienum
  have hsorted : (sortPairs row.enum).Pairwise KeyLT :=
    sortPairs_sorted (enum_pairwise_idx row)
  cases hs : sortPairs row.enum with
  | nil => rw [hs] at hmem; simp at hmem
  | cons a rest =>
    obtain ⟨a1, a2⟩ := a
    rw [hs] at hmem hsorted hperm
    have hamem : (a1, a2) ∈ row.enum :=
      hperm.mem_iff.mp (List.mem_cons_self _ _)
    have ha2 : row[a1]? = some a2 := List.mk_mem_enum_iff_getElem?.mp hamem
    have halen : a1 < row.length := by
      by_contra hcon
      rw [List.getElem?_eq_none (Nat.le_of_not_lt hcon)] at ha2
      cases ha2
    have ha2' : a2 = row.getD a1 0 := by
      rw [List.getD_eq_getElem?_getD, ha2]
      rfl
    have hafst : a1 = i := by
      by_contra hne
      have hlt : a2 < row.getD i 0 := ha2' ▸ hmax a1 halen hne
      have hrest : (i, row.getD i 0) ∈ rest := by
        rcases List.mem_cons.mp hmem with heq | h
        · exfalso
          injection heq with hfst _
          exact hne hfst.symm
        · exact h
      have hkey : KeyLT (a1, a2) (i, row.getD i 0) :=
        (List.pairwise_cons.mp hsorted).1 _ hrest
      rcases hkey with hk | ⟨hk, _⟩
      · exact absurd hk (not_lt.mpr (le_of_lt hlt))
      · exact absurd hk (ne_of_lt hlt)
    have haval : ((a1, a2) : Nat × ℚ) = (i, row.getD i 0) := by
      rw [hafst] at ha2' ⊢
      rw [ha2']
    rw [haval] at hs hperm
    have hnodup : (((i, row.getD i 0) :: rest).map Prod.fst).Nodup :=
      (hperm.map Prod.fst).nodup_iff.mpr (List.nodup_enum_map_fst row)
    rw [List.map_cons] at hnodup
    rcases List.nodup_cons.mp hnodup with ⟨hnotin, -⟩
    exact ⟨rest, by rw [haval], hnotin⟩

/-- `buildRecs` succeeds and preserves length when every row index is in
range of the movie table. -/
theorem buildRecs_some (movies : List MovieRow)
    (fp ft : String → Option String) (js : List Nat)
    (h : ∀ j ∈ js, j < movies.length) :
    ∃ recs, buildRecs movies fp ft js = some recs ∧ recs.length = js.length := by
  induction js with
  | nil => exact ⟨[], rfl, rfl⟩
  | cons j js ih =>
    have hj : j < movies.length := h j (List.mem_cons_self j js)
    rcases ih (fun k hk => h k (List.mem_cons_of_mem j hk)) with ⟨recs, hrecs, hlen⟩
    have hget : movies[j]? = some movies[j] := List.getElem?_eq_getElem hj
    refine ⟨{ title := movies[j].original_title, poster := fp movies[j].imdb_id,
              trailer := ft movies[j].imdb_id } :: recs, ?_, ?_⟩
    · simp only [buildRecs, hget, hrecs, Option.map_some']
    · simp [hlen]

/-- `findIdx?` returns the least matching index. -/
theorem titleIndex_least {movies : List MovieRow} {movie_title : String} {i : Nat}
    (h1 : ∃ r, movies[i]? = some r ∧ r.original_title = movie_title)
    (hleast : ∀ j r, j < i → movies[j]? = some r →
      r.original_title ≠ movie_title) :
    titleIndex movies movie_title = some i := by
  induction movies generalizing i with
  | nil =>
    rcases h1 with ⟨r, hr, _⟩
    simp at hr
  | cons m ms ih =>
    cases i with
    | zero =>
      rcases h1 with ⟨r, hr, hrt⟩
      rw [List.getElem?_cons_zero] at hr
      cases hr
      simp [titleIndex, List.findIdx?_cons, hrt]
    | succ j =>
      have hm : m.original_title ≠ movie_title :=
        hleast 0 m (Nat.succ_pos j) List.getElem?_cons_zero
      have hstep : titleIndex ms movie_title = some j := by
        apply ih
        · rcases h1 with ⟨r, hr, hrt⟩
          exact ⟨r, by rwa [List.getElem?_cons_succ] at hr, hrt⟩
        · intro k r hk hr
          refine hleast (k + 1) r (Nat.succ_lt_succ hk) ?_
          rwa [List.getElem?_cons_succ]
      have hbm : (m.original_title == movie_title) = false := by
        simpa using hm
      simp only [titleIndex, List.findIdx?_cons, hbm]
      rw [if_neg (by simp), List.findIdx?_start_succ]
      simp only [titleIndex] at hstep
      simp [hstep]

/-! ## Claim theorems for the recommender -/

/-- C1: every candidate list `recommend` builds (the `distances` list of the
first matching table row) is ordered by strictly descending similarity score,
with ties between equal scores broken by ascending original row index — the
stable-sort tie-break.  Re-running is deterministic: `candidates` and
`recommend` are functions of the movie table, the matrix and the title alone. -/
theorem C1_candidates_sorted (movies : List MovieRow)
    (similarity : List (List ℚ)) (movie_title : String) (l : List (Nat × ℚ))
    (h : candidates movies similarity movie_title = some l) :
    l.Pairwise KeyLT := by
  rcases Option.bind_eq_some.mp h with ⟨index, ht, h2⟩
  rcases Option.map_eq_some'.mp h2 with ⟨row, hr, hl⟩
  subst hl
  exact sortPairs_sorted (enum_pairwise_idx row)

/-- Witness for C1: a concrete 3-movie table whose queried row carries a tie
between rows 1 and 2; the tie is broken by the original row order. -/
theorem C1_candidates_sorted_witness :
    candidates [⟨"A", "tt1", none⟩, ⟨"B", "tt2", none⟩, ⟨"C", "tt3", none⟩]
        [[5, 3, 3], [3, 5, 1], [3, 1, 5]] "A" =
      some [(0, 5), (1, 3), (2, 3)] ∧
    List.Pairwise KeyLT [((0 : Nat), (5 : ℚ)), (1, 3), (2, 3)] :=
  ⟨by decide,
    C1_candidates_sorted
      [⟨"A", "tt1", none⟩, ⟨"B", "tt2", none⟩, ⟨"C", "tt3", none⟩]
      [[5, 3, 3], [3, 5, 1], [3, 1, 5]] "A" [(0, 5), (1, 3), (2, 3)]
      (by decide)⟩

/-- C2 (amended): when the first matching row `i` of the queried title has
strictly maximal self-similarity in its matrix row, the head of the sorted
candidate list is row `i` itself; it is dropped, and no candidate row index
`recommend` uses equals `i`.  Strictness is necessary: a mere maximum
admits a tie with an earlier row, which then sorts first and is the entry
dropped, so the queried movie itself is returned (see counterexample). -/
theorem C2_recommend_excludes_self (movies : List MovieRow)
    (similarity : List (List ℚ)) (movie_title : String) (i : Nat)
    (row : List ℚ)
    (h1 : titleIndex movies movie_title = some i)
    (h2 : similarity[i]? = some row)
    (hi : i < row.length)
    (hmax : ∀ j, j < row.length → j ≠ i → row.getD j 0 < row.getD i 0) :
    ∃ idxs, recIndices movies similarity movie_title = some idxs ∧
      i ∉ idxs := by
  rcases sortPairs_head_of_strict_max hi hmax with ⟨rest, hsort, hnotin⟩
  have hc := candidates_eq h1 h2
  refine ⟨(rest.take 5).map Prod.fst, ?_, ?_⟩
  · rw [recIndices, hc, Option.map_some', hsort]
    rfl
  · intro hmem
    apply hnotin
    rcases List.mem_map.mp hmem with ⟨p, hp, hpi⟩
    exact List.mem_map.mpr ⟨p, List.mem_of_mem_take hp, hpi⟩

/-- Counterexample to C2 as stated: querying "B" (first matching row 1)
whose similarity row is `[1, 1]` — self-similarity is maximal but tied with
row 0, so row 0 is the dropped head and `recommend` returns the queried
movie "B" itself. -/
theorem C2_counterexample :
    titleIndex [⟨"A", "tt1", none⟩, ⟨"B", "tt2", none⟩] "B" = some 1 ∧
    recommend [⟨"A", "tt1", none⟩, ⟨"B", "tt2", none⟩] [[1, 1], [1, 1]]
        (fun _ => none) (fun _ => none) "B" =
      some [{ title := "B", poster := none, trailer := none }] := by
  decide

/-- Witness for C2 on a concrete 2-movie table with dominant diagonal. -/
theorem C2_recommend_excludes_self_witness :
    ∃ idxs,
      recIndices [⟨"A", "tt1", none⟩, ⟨"B", "tt2", none⟩] [[5, 1], [1, 5]]
          "A" = some idxs ∧ 0 ∉ idxs :=
  C2_recommend_excludes_self _ _ _ 0 [5, 1] (by decide) (by decide)
    (by decide) (by decide)

/-- C3: for a title present in the table whose similarity row indexes into
the table (the loader's intended invariant), `recommend` returns normally,
the candidate rows are pairwise distinct, and the result count is
`min 5 (row.length - 1)`: fewer than 5 results when the row has fewer than
6 entries, exactly 5 when it has at least 6. -/
theorem C3_recommend_count_safe (movies : List MovieRow)
    (similarity : List (List ℚ))
    (fetchPoster fetchTrailer : String → Option String)
    (movie_title : String) (i : Nat) (row : List ℚ)
    (h1 : titleIndex movies movie_title = some i)
    (h2 : similarity[i]? = some row)
    (hlen : row.length ≤ movies.length) :
    ∃ idxs recs,
      recIndices movies similarity movie_title = some idxs ∧
      recommend movies similarity fetchPoster fetchTrailer movie_title =
        some recs ∧
      idxs.Nodup ∧
      recs.length = min 5 (row.length - 1) ∧
      (row.length < 6 → recs.length < 5) ∧
      (6 ≤ row.length → recs.length = 5) := by
  have hc := candidates_eq h1 h2
  have hdlen : (sortPairs row.enum).length = row.length :=
    (sortPairs_perm row.enum).length_eq.trans List.enum_length
  have hidx : recIndices movies similarity movie_title =
      some ((((sortPairs row.enum).drop 1).take 5).map Prod.fst) := by
    rw [recIndices, hc, Option.map_some']
  have hbound : ∀ j ∈ (((sortPairs row.enum).drop 1).take 5).map Prod.fst,
      j < movies.length := by
    intro j hj
    rcases List.mem_map.mp hj with ⟨p, hp, hpj⟩
    have hpd : p ∈ sortPairs row.enum :=
      List.mem_of_mem_drop (List.mem_of_mem_take hp)
    have hpe : p ∈ row.enum := (sortPairs_perm row.enum).mem_iff.mp hpd
    obtain ⟨p1, p2⟩ := p
    have hget : row[p1]? = some p2 := List.mk_mem_enum_iff_getElem?.mp hpe
    have hplt : p1 < row.length := by
      by_contra hcon
      rw [List.getElem?_eq_none (Nat.le_of_not_lt hcon)] at hget
      cases hget
    subst hpj
    exact lt_of_lt_of_le hplt hlen
  rcases buildRecs_some movies fetchPoster fetchTrailer _ hbound with
    ⟨recs, hbr, hrlen⟩
  have hnodup : ((((sortPairs row.enum).drop 1).take 5).map Prod.fst).Nodup := by
    have hmfst : ((sortPairs row.enum).map Prod.fst).Nodup :=
      ((sortPairs_perm row.enum).map Prod.fst).nodup_iff.mpr
        (List.nodup_enum_map_fst row)
    rw [List.map_take, List.map_drop]
    exact List.Nodup.sublist
      ((List.take_sublist _ _).trans (List.drop_sublist _ _)) hmfst
  have hilen : ((((sortPairs row.enum).drop 1).take 5).map Prod.fst).length =
      min 5 (row.length - 1) := by
    rw [List.length_map, List.length_take, List.length_drop, hdlen]
  refine ⟨_, recs, hidx, ?_, hnodup, ?_, ?_, ?_⟩
  · rw [recommend, hidx, Option.some_bind]
    exact hbr
  · rw [hrlen, hilen]
  · intro h6
    rw [hrlen, hilen]
    omega
  · intro h6
    rw [hrlen, hilen]
    omega

/-- Witness for C3 on a 3-movie table: the similarity row has 3 entries, so
fewer than 6, and the call returns 2 results without raising. -/
theorem C3_recommend_count_safe_witness :
    ∃ idxs recs,
      recIndices [⟨"A", "tt1", none⟩, ⟨"B", "tt2", none⟩, ⟨"C", "tt3", none⟩]
          [[5, 1, 2], [1, 5, 3], [2, 3, 5]] "A" = some idxs ∧
      recommend [⟨"A", "tt1", none⟩, ⟨"B", "tt2", none⟩, ⟨"C", "tt3", none⟩]
          [[5, 1, 2], [1, 5, 3], [2, 3, 5]] (fun _ => none) (fun _ => none)
          "A" = some recs ∧
      idxs.Nodup ∧
      recs.length = min 5 (([(5 : ℚ), 1, 2]).length - 1) ∧
      (([(5 : ℚ), 1, 2]).length < 6 → recs.length < 5) ∧
      (6 ≤ ([(5 : ℚ), 1, 2]).length → recs.length = 5) :=
  C3_recommend_count_safe _ _ _ _ _ 0 [5, 1, 2] (by decide) (by decide)
    (by decide)

/-- C4: a title matching no table row makes `recommend` raise (the unguarded
`IndexError` of `.index[0]`, modelled by `none`) instead of returning a list. -/
theorem C4_recommend_raises_on_unknown_title (movies : List MovieRow)
    (similarity : List (List ℚ))
    (fetchPoster fetchTrailer : String → Option String)
    (movie_title : String)
    (h : ∀ r ∈ movies, r.original_title ≠ movie_title) :
    recommend movies similarity fetchPoster fetchTrailer movie_title =
      none := by
  have ht : titleIndex movies movie_title = none :=
    List.findIdx?_eq_none_iff.mpr fun r hr => beq_eq_false_iff_ne.mpr (h r hr)
  simp [recommend, recIndices, candidates, ht]

/-- Witness for C4: querying a title absent from a 1-movie table. -/
theorem C4_recommend_raises_on_unknown_title_witness :
    (∀ r ∈ [(⟨"A", "tt1", none⟩ : MovieRow)], r.original_title ≠ "B") ∧
    recommend [⟨"A", "tt1", none⟩] [[1]] (fun _ => none) (fun _ => none)
      "B" = none :=
  ⟨by decide, C4_recommend_raises_on_unknown_title _ _ _ _ _ (by decide)⟩

/-- C10: when several rows share the queried display title, the smallest
matching row index selects the similarity row, and the other duplicate rows
never influence the result: any matrix agreeing on that one row yields the
identical `recommend` output. -/
theorem C10_recommend_uses_first_duplicate (movies : List MovieRow)
    (similarity similarity' : List (List ℚ))
    (fetchPoster fetchTrailer : String → Option String)
    (movie_title : String) (i : Nat)
    (h1 : ∃ r, movies[i]? = some r ∧ r.original_title = movie_title)
    (hleast : ∀ j r, j < i → movies[j]? = some r →
      r.original_title ≠ movie_title)
    (hsame : similarity'[i]? = similarity[i]?) :
    candidates movies similarity movie_title =
      similarity[i]?.map (fun row => sortPairs row.enum) ∧
    recommend movies similarity' fetchPoster fetchTrailer movie_title =
      recommend movies similarity fetchPoster fetchTrailer movie_title := by
  have ht := titleIndex_least h1 hleast
  constructor
  · simp [candidates, ht]
  · simp [recommend, recIndices, candidates, ht, hsame]

/-- Witness for C10: two rows titled "Dup"; changing the second duplicate's
similarity row does not change the output. -/
theorem C10_recommend_uses_first_duplicate_witness :
    candidates [⟨"Dup", "tt1", none⟩, ⟨"Dup", "tt2", none⟩] [[5, 1], [1, 5]]
        "Dup" =
      ([[(5 : ℚ), 1], [1, 5]])[0]?.map (fun row => sortPairs row.enum) ∧
    recommend [⟨"Dup", "tt1", none⟩, ⟨"Dup", "tt2", none⟩] [[5, 1], [9, 9]]
        (fun _ => none) (fun _ => none) "Dup" =
      recommend [⟨"Dup", "tt1", none⟩, ⟨"Dup", "tt2", none⟩] [[5, 1], [1, 5]]
        (fun _ => none) (fun _ => none) "Dup" :=
  C10_recommend_uses_first_duplicate _ _ _ _ _ _ 0
    ⟨⟨"Dup", "tt1", none⟩, rfl, rfl⟩
    (fun j r hj _ => absurd hj (Nat.not_lt_zero j))
    (by decide)

/-! ## Supporting lemmas about the gateway -/

/-- The resolver never raises: the empty-id guard returns directly and the
whole remaining body sits inside the `try/except`. -/
theorem resolve_ok (o : TmdbOracle) (imdb_id : String) :
    ∃ v, _resolve_tmdb_id_from_imdb o imdb_id = .ok v := by
  unfold _resolve_tmdb_id_from_imdb
  by_cases h : imdb_id = ""
  · rw [if_pos h]
    exact ⟨none, rfl⟩
  · rw [if_neg h]
    exact ⟨_, rfl⟩

theorem fetch_poster_ok (o : TmdbOracle) (imdb_id : String) :
    ∃ v, fetch_poster_by_imdb o imdb_id = .ok v := by
  obtain ⟨r, hr⟩ := resolve_ok o imdb_id
  simp only [fetch_poster_by_imdb, hr]
  by_cases hi : intTruthy r
  · rw [if_pos hi]
    exact ⟨_, rfl⟩
  · rw [if_neg hi]
    exact ⟨_, rfl⟩

theorem fetch_trailer_ok (o : TmdbOracle) (imdb_id : String) :
    ∃ v, fetch_trailer_by_imdb o imdb_id = .ok v := by
  obtain ⟨r, hr⟩ := resolve_ok o imdb_id
  simp only [fetch_trailer_by_imdb, hr]
  by_cases hi : intTruthy r
  · rw [if_pos hi]
    exact ⟨_, rfl⟩
  · rw [if_neg hi]
    exact ⟨_, rfl⟩

theorem get_movie_details_ok (o : TmdbOracle) (imdb_id : String)
    (director_name : String) :
    ∃ v, get_movie_details_by_imdb o imdb_id director_name = .ok v := by
  obtain ⟨r, hr⟩ := resolve_ok o imdb_id
  simp only [get_movie_details_by_imdb, hr]
  by_cases hi : intTruthy r
  · rw [if_pos hi]
    exact ⟨_, rfl⟩
  · rw [if_neg hi]
    exact ⟨_, rfl⟩

/-! ## Claim theorems for the gateway -/

/-- C5: whatever the oracle does on any endpoint (raise, return any status,
omit any field), none of the four gateway operations raises to its caller:
each returns a plain `Except.ok` value, failures appearing only as `none`
inside it. -/
theorem C5_gateway_never_raises (o : TmdbOracle) (imdb_id : String)
    (director_name : String) :
    (∃ v, _resolve_tmdb_id_from_imdb o imdb_id = .ok v) ∧
    (∃ v, fetch_poster_by_imdb o imdb_id = .ok v) ∧
    (∃ v, fetch_trailer_by_imdb o imdb_id = .ok v) ∧
    (∃ v, get_movie_details_by_imdb o imdb_id director_name = .ok v) :=
  ⟨resolve_ok o imdb_id, fetch_poster_ok o imdb_id,
    fetch_trailer_ok o imdb_id, get_movie_details_ok o imdb_id director_name⟩

/-- C6: in any bundle `buildDetails` assembles (the 200-branch of
`get_movie_details_by_imdb`), the budget and revenue fields are the
dollar-prefixed thousands-grouped string exactly when the provider value is
positive, and the literal "N/A" otherwise. -/
theorem C6_budget_revenue_format (data : FullPayload) (director_name : String)
    (d : MovieDetails) (h : buildDetails data director_name = .ok d) :
    d.budget = (if 0 < data.budget.getD 0 then
        "$" ++ commaFormat (data.budget.getD 0).toNat else "N/A") ∧
    d.revenue = (if 0 < data.revenue.getD 0 then
        "$" ++ commaFormat (data.revenue.getD 0).toNat else "N/A") := by
  unfold buildDetails at h
  cases hg : (if listTruthy data.genres then
      Except.map (String.intercalate ", ") (genreNames (data.genres.getD []))
    else (pure "N/A" : Except PyExn String)) with
  | error e =>
    rw [hg] at h
    cases h
  | ok g =>
    rw [hg] at h
    cases ha : (if listTruthy data.spoken_languages then
        Except.map (String.intercalate ", ")
          (langNames (data.spoken_languages.getD []))
      else (pure "N/A" : Except PyExn String)) with
    | error e =>
      rw [ha] at h
      cases h
    | ok a =>
      rw [ha] at h
      injection h with h
      subst h
      exact ⟨rfl, rfl⟩

/-- Witness for C6: `budget = 250000000` formats to "$250,000,000" and
`revenue = 0` to "N/A". -/
theorem C6_budget_revenue_format_witness :
    buildDetails samplePayload "Nolan" = .ok sampleDetails ∧
    sampleDetails.budget = "$250,000,000" ∧
    sampleDetails.revenue = "N/A" :=
  ⟨rfl,
    ((C6_budget_revenue_format samplePayload "Nolan" sampleDetails rfl).1).trans
      (by rfl),
    ((C6_budget_revenue_format samplePayload "Nolan" sampleDetails rfl).2).trans
      (by rfl)⟩

/-! ## Supporting lemmas about the history -/

/-- One `update_history` step preserves the invariant. -/
theorem update_history_preserves {h : List String} (hh : GoodHist h)
    (x : String) : GoodHist (update_history h x) := by
  rcases hh with ⟨hlen, hchain⟩
  unfold update_history
  by_cases hc : h = [] ∨ h.getLast? ≠ some x
  · rw [if_pos hc]
    have hchain' : (h ++ [x]).Chain' (· ≠ ·) := by
      rw [List.chain'_append]
      refine ⟨hchain, List.chain'_singleton x, ?_⟩
      intro a ha b hb
      rcases hc with hc | hc
      · subst hc
        simp at ha
      · have hb' : b = x := by
          have := hb
          simp at this
          exact this.symm
        subst hb'
        intro hax
        subst hax
        exact hc ha
    by_cases h5 : 5 < (h ++ [x]).length
    · rw [if_pos h5]
      constructor
      · have : (h ++ [x]).length ≤ 6 := by
          simp only [List.length_append, List.length_singleton]
          omega
        simp only [List.length_drop]
        omega
      · exact hchain'.drop 1
    · rw [if_neg h5]
      constructor
      · omega
      · exact hchain'
  · rw [if_neg hc]
    exact ⟨hlen, hchain⟩

/-- The invariant holds for every history reachable from the empty list. -/
theorem foldl_update_history_good (ids : List String) :
    GoodHist (ids.foldl update_history []) := by
  have hstep : ∀ (h : List String), GoodHist h →
      GoodHist (ids.foldl update_history h) := by
    induction ids with
    | nil => intro h hh; exact hh
    | cons x xs ih =>
      intro h hh
      exact ih _ (update_history_preserves hh x)
  exact hstep [] ⟨by simp, List.chain'_nil⟩

/-! ## Claim theorems for the history -/

/-- C7: from the empty list the recently-viewed list always holds at most 5
identifiers with no two adjacent entries equal; appending the current last
entry is a no-op; any other append goes to the end, evicting the front entry
when the list already holds 5; appending 6 pairwise-adjacent-distinct
identifiers leaves exactly the last 5, oldest first. -/
theorem C7_update_history_bounded :
    (∀ ids : List String,
      (ids.foldl update_history []).length ≤ 5 ∧
      (ids.foldl update_history []).Chain' (· ≠ ·)) ∧
    (∀ (h : List String) (x : String),
      h.getLast? = some x → update_history h x = h) ∧
    (∀ (h : List String) (x : String), h.length ≤ 5 →
      h.getLast? ≠ some x →
      update_history h x =
        if h.length = 5 then h.drop 1 ++ [x] else h ++ [x]) ∧
    (∀ a b c d e f : String, a ≠ b → b ≠ c → c ≠ d → d ≠ e → e ≠ f →
      [a, b, c, d, e, f].foldl update_history [] = [b, c, d, e, f]) := by
  refine ⟨fun ids => foldl_update_history_good ids, ?_, ?_, ?_⟩
  · intro h x hlast
    have hne : h ≠ [] := by
      intro hnil
      rw [hnil] at hlast
      simp at hlast
    unfold update_history
    rw [if_neg]
    push_neg
    exact ⟨hne, by rw [hlast]⟩
  · intro h x hlen hlast
    unfold update_history
    rw [if_pos (Or.inr hlast)]
    by_cases h5 : h.length = 5
    · rw [if_pos (by simp [List.length_append, h5]), if_pos h5]
      cases h with
      | nil => simp at h5
      | cons a t => simp
    · rw [if_neg (by simp [List.length_append]; omega), if_neg h5]
  · intro a b c d e f hab hbc hcd hde hef
    simp [update_history, List.getLast?, hab, hbc, hcd, hde, hef]

/-- Witness for C7: six distinct concrete identifiers leave the last five. -/
theorem C7_update_history_bounded_witness :
    ["t1", "t2", "t3", "t4", "t5", "t6"].foldl update_history [] =
      ["t2", "t3", "t4", "t5", "t6"] :=
  C7_update_history_bounded.2.2.2 "t1" "t2" "t3" "t4" "t5" "t6"
    (by decide) (by decide) (by decide) (by decide) (by decide)

/-! ## Claim theorems for the resolution cache -/

/-- C8: the resolver returns `None` on the empty identifier for every oracle
(no outbound call can be observed); the cache capacity is 4096; a miss
followed by a repeat of the same id performs exactly one underlying call in
total; and a miss on a full cache inserts at the front and evicts the
least-recently-used (last) entry. -/
theorem C8_resolution_cache (o o' : TmdbOracle)
    (st : List (String × Option Int)) (k : String)
    (hmiss : lruLookup k st = none) :
    (_resolve_tmdb_id_from_imdb o "" = .ok none ∧
      _resolve_tmdb_id_from_imdb o "" = _resolve_tmdb_id_from_imdb o' "") ∧
    RESOLVE_CACHE_CAPACITY = 4096 ∧
    ((cachedResolve o st k).2.2 = 1 ∧
      (cachedResolve o (cachedResolve o st k).2.1 k).2.2 = 0) ∧
    (st.length = RESOLVE_CACHE_CAPACITY →
      (cachedResolve o st k).2.1 =
        (k, resolveValue o k) :: st.dropLast) := by
  refine ⟨⟨rfl, rfl⟩, rfl, ⟨?_, ?_⟩, ?_⟩
  · simp [cachedResolve, lruCall, hmiss]
  · simp only [cachedResolve, lruCall, hmiss]
    have hcap : RESOLVE_CACHE_CAPACITY = 4095 + 1 := rfl
    rw [hcap, List.take_succ_cons]
    simp [lruLookup]
  · intro hfull
    simp only [cachedResolve, lruCall, hmiss]
    have hcap : RESOLVE_CACHE_CAPACITY = 4095 + 1 := rfl
    rw [hcap, List.take_succ_cons]
    have : st.take 4095 = st.dropLast := by
      rw [List.dropLast_eq_take]
      rw [hfull]
      rfl
    rw [this]

/-- Witness for C8 at a concrete oracle, cache state and key. -/
theorem C8_resolution_cache_witness :
    (_resolve_tmdb_id_from_imdb oracleStub "" = .ok none ∧
      _resolve_tmdb_id_from_imdb oracleStub "" =
        _resolve_tmdb_id_from_imdb oracleStub "") ∧
    RESOLVE_CACHE_CAPACITY = 4096 ∧
    ((cachedResolve oracleStub [("tt1", some 27), ("tt2", none)] "tt3").2.2 = 1 ∧
      (cachedResolve oracleStub
        (cachedResolve oracleStub [("tt1", some 27), ("tt2", none)] "tt3").2.1
        "tt3").2.2 = 0) ∧
    ([("tt1", some 27), ("tt2", none)].length = RESOLVE_CACHE_CAPACITY →
      (cachedResolve oracleStub [("tt1", some 27), ("tt2", none)] "tt3").2.1 =
        ("tt3", resolveValue oracleStub "tt3") ::
          [("tt1", some 27), ("tt2", none)].dropLast) :=
  C8_resolution_cache oracleStub oracleStub
    [("tt1", some 27), ("tt2", none)] "tt3" (by decide)

/-! ## Claim theorems for the loader -/

/-- Counterexample to C9 as stated: the loader accepts a 2-row movie table
together with a 1-row similarity matrix — no row-count equality check
exists in the load block. -/
theorem C9_loader_counterexample :
    loadData
        { moviesPickle :=
            some ⟨true, true, [⟨"A", "tt1", none⟩, ⟨"B", "tt2", none⟩]⟩
          similarityPickle := some [[1, 0]] } =
      some ([⟨"A", "tt1", none⟩, ⟨"B", "tt2", none⟩], [[1, 0]]) ∧
    ([[(1 : ℚ), 0]].length ≠
      [(⟨"A", "tt1", none⟩ : MovieRow), ⟨"B", "tt2", none⟩].length) :=
  ⟨rfl, by decide⟩

/-- C9 amended: startup halts with a visible error exactly when an artifact
fails to load or a required column (`original_title`, `imdb_id`) is missing;
the loader performs no similarity/table row-count comparison, so mismatched
artifacts are served. -/
theorem C9_loader_halts_on_missing_or_malformed (raw : RawArtifacts) :
    loadData raw = none ↔
      raw.moviesPickle = none ∨ raw.similarityPickle = none ∨
      ∃ m, raw.moviesPickle = some m ∧
        (m.hasOriginalTitle = false ∨ m.hasImdbId = false) := by
  obtain ⟨mp, sp⟩ := raw
  cases mp with
  | none => simp [loadData]
  | some m =>
    cases sp with
    | none => simp [loadData]
    | some s =>
      obtain ⟨ht, hi, rows⟩ := m
      cases ht <;> cases hi <;> simp [loadData]

end CineMatch
